import Mathlib

/-!
Verification of the ingestion pipeline (`src/services`, `src/ingestion`)
against its natural-language specification.

The Python code is shallowly embedded: each stateful service becomes a pure
Lean function over an explicit state record, with the wall clock passed in as
an explicit rational-valued `now` argument (the Python code reads
`time.time()`; a single public call reads the clock at one instant in this
model).  Python floats are modelled as exact rationals `ℚ`; Python `int`
counters as `Nat`.  Exceptions become `Except` results; a raising call still
returns the mutated state, mirroring Python where state mutations before a
`raise` persist.
-/

namespace Kasparro

/-- `core.models.SourceType`. -/
inductive SourceType where
  | api
  | csv
  | rss
deriving DecidableEq

/-- `core.models.RunStatus`.  The Python member `PARTIAL` is named
`partialRun` here because its Python name is a Lean keyword. -/
inductive RunStatus where
  | running
  | success
  | failed
  | partialRun
deriving DecidableEq

/-! ## Rate limiter (`src/services/rate_limiter.py`) -/

/-- `RateLimiterState` (dataclass, lines 17-25). -/
structure RateLimiterState where
  requests_made : Nat
  window_start : ℚ
  current_backoff : ℚ
  retry_count : Nat
  last_request_time : ℚ
deriving DecidableEq

/-- A freshly created per-key state: `RateLimiterState()` with
`window_start = time.time()` at creation instant `now`. -/
def RateLimiterState.fresh (now : ℚ) : RateLimiterState :=
  { requests_made := 0
    window_start := now
    current_backoff := 0
    retry_count := 0
    last_request_time := 0 }

/-- The three constructor parameters of `RateLimiter` (lines 31-39), after
the `or`-defaulting against settings has been resolved. -/
structure RateLimiterConfig where
  requests_per_minute : Nat
  max_retries : Nat
  backoff_base : ℚ
deriving DecidableEq

/-- `core.exceptions.RateLimitError` (message plus optional retry-after). -/
structure RateLimitError where
  message : String
  retry_after : Option ℚ
deriving DecidableEq

/-- `RateLimiter._reset_window_if_needed` (lines 48-55): on ≥ 60s elapsed,
zero the request count, restart the window at `now`, and clear the retry
counter and backoff. -/
def resetWindowIfNeeded (now : ℚ) (s : RateLimiterState) : RateLimiterState :=
  if 60 ≤ now - s.window_start then
    { requests_made := 0
      window_start := now
      current_backoff := 0
      retry_count := 0
      last_request_time := s.last_request_time }
  else s

/-- `RateLimiter.check_rate_limit` (lines 57-69).  Returns the wait time and
the (possibly window-reset) state. -/
def checkRateLimit (cfg : RateLimiterConfig) (now : ℚ) (s : RateLimiterState) :
    ℚ × RateLimiterState :=
  let s1 := resetWindowIfNeeded now s
  if cfg.requests_per_minute ≤ s1.requests_made then
    (max 0 (60 - (now - s1.window_start)), s1)
  else
    (0, s1)

/-- `RateLimiter.record_request` (lines 71-79). -/
def recordRequest (now : ℚ) (s : RateLimiterState) : RateLimiterState :=
  { s with requests_made := s.requests_made + 1, last_request_time := now }

/-- `RateLimiter.record_success` (lines 81-85). -/
def recordSuccess (s : RateLimiterState) : RateLimiterState :=
  { s with retry_count := 0, current_backoff := 0 }

/-- `RateLimiter.record_failure` (lines 87-108).  The retry counter is
incremented first; past `max_retries` the call raises `RateLimitError`
(the incremented state persists), otherwise it stores and returns
`backoff_base ** retry_count`. -/
def recordFailure (cfg : RateLimiterConfig) (sourceKey : String)
    (s : RateLimiterState) : Except RateLimitError ℚ × RateLimiterState :=
  let s1 := { s with retry_count := s.retry_count + 1 }
  if cfg.max_retries < s1.retry_count then
    (Except.error
      { message := s!"Max retries ({cfg.max_retries}) exceeded for {sourceKey}"
        retry_after := none }, s1)
  else
    let b := cfg.backoff_base ^ s1.retry_count
    (Except.ok b, { s1 with current_backoff := b })

/-- `RateLimiter.wait_if_needed` (lines 110-115): delegates to
`check_rate_limit`; the actual sleeping is outside the model. -/
def waitIfNeeded (cfg : RateLimiterConfig) (now : ℚ) (s : RateLimiterState) :
    ℚ × RateLimiterState :=
  checkRateLimit cfg now s

/-- `n` consecutive `record_failure` calls, keeping only the state. -/
def failStreak (cfg : RateLimiterConfig) (sourceKey : String) :
    Nat → RateLimiterState → RateLimiterState
  | 0, s => s
  | n + 1, s => (recordFailure cfg sourceKey (failStreak cfg sourceKey n s)).2

theorem recordFailure_retry_count (cfg : RateLimiterConfig) (k : String)
    (s : RateLimiterState) :
    (recordFailure cfg k s).2.retry_count = s.retry_count + 1 := by
  unfold recordFailure
  dsimp only
  split <;> rfl

theorem failStreak_retry_count (cfg : RateLimiterConfig) (k : String)
    (n : Nat) (s : RateLimiterState) :
    (failStreak cfg k n s).retry_count = s.retry_count + n := by
  induction n with
  | zero => rfl
  | succ m ih =>
    rw [failStreak, recordFailure_retry_count, ih]
    omega

/-- The scenario of §8 of the spec: a sequence of calls at instants `ts`,
each of which checks the limit and, when admitted (wait 0), records the
request.  Returns the list of waits and the final state. -/
def simulateAdmit (cfg : RateLimiterConfig) :
    RateLimiterState → List ℚ → List ℚ × RateLimiterState
  | s, [] => ([], s)
  | s, t :: ts =>
    let p := checkRateLimit cfg t s
    let s2 := if p.1 = 0 then recordRequest t p.2 else p.2
    let r := simulateAdmit cfg s2 ts
    (p.1 :: r.1, r.2)

theorem simulateAdmit_spec (cfg : RateLimiterConfig) (t0 : ℚ) :
    ∀ (ts : List ℚ) (s : RateLimiterState),
      s.window_start = t0 →
      s.requests_made ≤ cfg.requests_per_minute →
      (∀ t ∈ ts, t0 ≤ t ∧ t < t0 + 60) →
      (simulateAdmit cfg s ts).1.length = ts.length ∧
      (simulateAdmit cfg s ts).2.window_start = t0 ∧
      (simulateAdmit cfg s ts).2.requests_made ≤ cfg.requests_per_minute ∧
      ∀ j, j < ts.length →
        (simulateAdmit cfg s ts).1.getD j 0 =
          if s.requests_made + j < cfg.requests_per_minute then 0
          else 60 - (ts.getD j 0 - t0) := by
  intro ts
  induction ts with
  | nil =>
    intro s hws hm hts
    refine ⟨rfl, hws, hm, ?_⟩
    intro j hj
    exact absurd hj (by simp)
  | cons t ts ih =>
    intro s hws hm hts
    have ht : t0 ≤ t ∧ t < t0 + 60 := hts t (by simp)
    have hts' : ∀ u ∈ ts, t0 ≤ u ∧ u < t0 + 60 := fun u hu => hts u (by simp [hu])
    have hnoreset : resetWindowIfNeeded t s = s := by
      unfold resetWindowIfNeeded
      rw [if_neg]
      rw [hws]
      intro hcon
      linarith [ht.1, ht.2]
    by_cases hcase : cfg.requests_per_minute ≤ s.requests_made
    · have hw : checkRateLimit cfg t s = (60 - (t - t0), s) := by
        unfold checkRateLimit
        rw [hnoreset, if_pos hcase, hws, max_eq_right (by linarith [ht.2])]
      have hstep :
          simulateAdmit cfg s (t :: ts) =
            ((60 - (t - t0)) :: (simulateAdmit cfg s ts).1,
              (simulateAdmit cfg s ts).2) := by
        rw [simulateAdmit, hw]
        simp only [if_neg (by linarith [ht.2] : ¬ (60 - (t - t0) = 0))]
      obtain ⟨ihlen, ihws, ihm, ihget⟩ := ih s hws hm hts'
      rw [hstep]
      refine ⟨by simpa using ihlen, ihws, ihm, ?_⟩
      intro j hj
      match j with
      | 0 =>
        simp only [List.getD_cons_zero]
        rw [if_neg (by omega)]
      | j + 1 =>
        simp only [List.getD_cons_succ]
        rw [ihget j (by simpa using hj)]
        have h1 : ¬ (s.requests_made + j < cfg.requests_per_minute) := by omega
        have h2 : ¬ (s.requests_made + (j + 1) < cfg.requests_per_minute) := by
          omega
        rw [if_neg h1, if_neg h2]
    · push_neg at hcase
      have hw : checkRateLimit cfg t s = (0, s) := by
        unfold checkRateLimit
        rw [hnoreset, if_neg (not_le.mpr hcase)]
      have hstep :
          simulateAdmit cfg s (t :: ts) =
            ((0 : ℚ) :: (simulateAdmit cfg (recordRequest t s) ts).1,
              (simulateAdmit cfg (recordRequest t s) ts).2) := by
        rw [simulateAdmit, hw]
        simp
      obtain ⟨ihlen, ihws, ihm, ihget⟩ :=
        ih (recordRequest t s) (by simp [recordRequest, hws])
          (by simp only [recordRequest]; omega) hts'
      rw [hstep]
      refine ⟨by simpa using ihlen, ihws, ihm, ?_⟩
      intro j hj
      match j with
      | 0 =>
        simp only [List.getD_cons_zero]
        rw [if_pos (by omega)]
      | j + 1 =>
        simp only [List.getD_cons_succ]
        rw [ihget j (by simpa using hj)]
        have hidx : (recordRequest t s).requests_made + j =
            s.requests_made + (j + 1) := by
          simp only [recordRequest]
          omega
        rw [hidx]

/-- C5: configured for N requests per minute, from a fresh key whose window
starts at `t0`, with every call instant inside the 60-second window and
every admitted request recorded: the wait is 0 for exactly the first N
calls and positive for every later call; and a check 61 seconds after the
window start resets the window and returns 0 again. -/
theorem checkRateLimit_window (cfg : RateLimiterConfig) (t0 : ℚ)
    (ts : List ℚ) (hN : 0 < cfg.requests_per_minute)
    (hts : ∀ t ∈ ts, t0 ≤ t ∧ t < t0 + 60) :
    (∀ j, j < ts.length →
      (j < cfg.requests_per_minute →
        (simulateAdmit cfg (RateLimiterState.fresh t0) ts).1.getD j 0 = 0) ∧
      (cfg.requests_per_minute ≤ j →
        0 < (simulateAdmit cfg (RateLimiterState.fresh t0) ts).1.getD j 0)) ∧
    (checkRateLimit cfg (t0 + 61)
        (simulateAdmit cfg (RateLimiterState.fresh t0) ts).2).1 = 0 := by
  obtain ⟨hlen, hws, hm, hget⟩ :=
    simulateAdmit_spec cfg t0 ts (RateLimiterState.fresh t0) rfl
      (by simp [RateLimiterState.fresh]) hts
  constructor
  · intro j hj
    constructor
    · intro hjN
      rw [hget j hj, if_pos (by simp only [RateLimiterState.fresh]; omega)]
    · intro hjN
      rw [hget j hj, if_neg (by simp only [RateLimiterState.fresh]; omega)]
      have hmem : ts.getD j 0 ∈ ts := by
        rw [List.getD_eq_getElem?_getD, List.getElem?_eq_getElem hj]
        exact List.getElem_mem hj
      linarith [(hts _ hmem).2]
  · unfold checkRateLimit resetWindowIfNeeded
    rw [hws]
    rw [if_pos (by linarith : (60 : ℚ) ≤ t0 + 61 - t0)]
    rw [if_neg (by omega : ¬ cfg.requests_per_minute ≤ 0)]

/-- Witness for C5 at `requests_per_minute = 2`, window start 0, three
calls at instant 0. -/
theorem checkRateLimit_window_witness :
    0 < (RateLimiterConfig.mk 2 5 2).requests_per_minute ∧
    (∀ t ∈ ([0, 0, 0] : List ℚ), (0 : ℚ) ≤ t ∧ t < 0 + 60) ∧
    (checkRateLimit ⟨2, 5, 2⟩ ((0 : ℚ) + 61)
        (simulateAdmit ⟨2, 5, 2⟩ (RateLimiterState.fresh 0) [0, 0, 0]).2).1 =
      0 := by
  have hts : ∀ t ∈ ([0, 0, 0] : List ℚ), (0 : ℚ) ≤ t ∧ t < 0 + 60 := by
    intro t htmem
    simp only [List.mem_cons, List.not_mem_nil, or_false] at htmem
    rcases htmem with h | h | h <;> rw [h] <;> norm_num
  exact ⟨by decide, hts,
    (checkRateLimit_window ⟨2, 5, 2⟩ 0 [0, 0, 0] (by decide) hts).2⟩

/-- C4: with `backoff_base = 2.0` and a fresh key, the k-th consecutive
`record_failure` returns 2.0^k while k ≤ max_retries, and the first call
whose retry counter exceeds `max_retries` raises `RateLimitError` with a
message naming the source key. -/
theorem recordFailure_exponential_backoff (cfg : RateLimiterConfig)
    (key : String) (t0 : ℚ) (k : Nat) (hbase : cfg.backoff_base = 2) :
    (k < cfg.max_retries →
      (recordFailure cfg key
          (failStreak cfg key k (RateLimiterState.fresh t0))).1 =
        Except.ok ((2 : ℚ) ^ (k + 1))) ∧
    (recordFailure cfg key
        (failStreak cfg key cfg.max_retries (RateLimiterState.fresh t0))).1 =
      Except.error
        { message := s!"Max retries ({cfg.max_retries}) exceeded for {key}"
          retry_after := none } := by
  have hret : ∀ n,
      (failStreak cfg key n (RateLimiterState.fresh t0)).retry_count = n := by
    intro n
    rw [failStreak_retry_count]
    simp [RateLimiterState.fresh]
  constructor
  · intro hk
    unfold recordFailure
    simp only [hret]
    rw [if_neg (by omega), hbase]
  · unfold recordFailure
    simp only [hret]
    rw [if_pos (by omega)]

/-- Witness for C4 at `max_retries = 4`, base 2, key `"coingecko"`: the
fourth failure returns 2.0^4 = 16, the fifth raises naming the key. -/
theorem recordFailure_exponential_backoff_witness :
    ((3 : Nat) < 4 ∧
      (recordFailure ⟨60, 4, 2⟩ "coingecko"
          (failStreak ⟨60, 4, 2⟩ "coingecko" 3 (RateLimiterState.fresh 0))).1 =
        Except.ok ((2 : ℚ) ^ 4)) ∧
    (recordFailure ⟨60, 4, 2⟩ "coingecko"
        (failStreak ⟨60, 4, 2⟩ "coingecko" 4 (RateLimiterState.fresh 0))).1 =
      Except.error
        { message := "Max retries (4) exceeded for coingecko"
          retry_after := none } := by
  constructor
  · exact ⟨by decide,
      (recordFailure_exponential_backoff ⟨60, 4, 2⟩ "coingecko" 0 3 rfl).1
        (by decide)⟩
  · exact Eq.trans
      ((recordFailure_exponential_backoff ⟨60, 4, 2⟩ "coingecko" 0 4 rfl).2)
      (congrArg Except.error (by decide))

/-- C9: a `check_rate_limit` (or `wait_if_needed`, which delegates to it)
60 or more seconds after the window start resets the window and with it the
retry counter and backoff: the pending failure streak is forgiven without
any `record_success`, and a subsequent `record_failure` returns
`backoff_base ^ 1`. -/
theorem windowReset_forgives_failures (cfg : RateLimiterConfig)
    (key : String) (s : RateLimiterState) (now : ℚ)
    (helapsed : 60 ≤ now - s.window_start)
    (hN : 0 < cfg.requests_per_minute) (hretry : 0 < cfg.max_retries) :
    (checkRateLimit cfg now s).1 = 0 ∧
    (checkRateLimit cfg now s).2.retry_count = 0 ∧
    (checkRateLimit cfg now s).2.current_backoff = 0 ∧
    (checkRateLimit cfg now s).2.requests_made = 0 ∧
    waitIfNeeded cfg now s = checkRateLimit cfg now s ∧
    (recordFailure cfg key (checkRateLimit cfg now s).2).1 =
      Except.ok (cfg.backoff_base ^ (1 : Nat)) := by
  have hcheck : checkRateLimit cfg now s =
      (0, { requests_made := 0, window_start := now, current_backoff := 0
            retry_count := 0, last_request_time := s.last_request_time }) := by
    unfold checkRateLimit resetWindowIfNeeded
    rw [if_pos helapsed]
    rw [if_neg (by omega : ¬ cfg.requests_per_minute ≤ 0)]
  rw [hcheck]
  refine ⟨rfl, rfl, rfl, rfl, ?_, ?_⟩
  · rw [waitIfNeeded, hcheck]
  · unfold recordFailure
    rw [if_neg (by simp only [RateLimiterState.mk.injEq]; omega)]

/-- Witness for C9: a key with 3 pending retries and backoff 8, checked 61
seconds after its window start. -/
theorem windowReset_forgives_failures_witness :
    ((60 : ℚ) ≤ 61 - (RateLimiterState.mk 5 0 8 3 2).window_start ∧
      0 < (RateLimiterConfig.mk 2 5 2).requests_per_minute ∧
      0 < (RateLimiterConfig.mk 2 5 2).max_retries) ∧
    (checkRateLimit ⟨2, 5, 2⟩ 61 ⟨5, 0, 8, 3, 2⟩).2.retry_count = 0 ∧
    (recordFailure ⟨2, 5, 2⟩ "api"
        (checkRateLimit ⟨2, 5, 2⟩ 61 ⟨5, 0, 8, 3, 2⟩).2).1 =
      Except.ok (((⟨2, 5, 2⟩ : RateLimiterConfig).backoff_base) ^ (1 : Nat)) := by
  have h := windowReset_forgives_failures ⟨2, 5, 2⟩ "api" ⟨5, 0, 8, 3, 2⟩ 61
    (by norm_num) (by decide) (by decide)
  exact ⟨⟨by norm_num, by decide, by decide⟩, h.2.1, h.2.2.2.2.2⟩

/-! ## Schema drift detection (`src/services/schema_drift.py`)

Python values appearing in records are embedded as `PyValue`; the runtime
type inspection of `_get_python_type` becomes a pure classification.  The
string-similarity `SequenceMatcher(None, a, b).ratio()` from `difflib` is
reimplemented exactly (the junk/autojunk machinery of `difflib` is inactive
here: no junk predicate is passed and field names are far below the
200-character autojunk threshold, so the block-extension loops are no-ops).
Similarity scores are exact rationals `2*M/T`; Python compares the
corresponding floats, which agrees on all values arising in the theorems
below.  `msize` uses a fuel argument `≥` the recursion depth (bounded by the
total size of the ranges), so it computes the same total as
`get_matching_blocks`. -/

/-- ASCII case folding, as `str.lower()` acts on the ASCII field names used
by the detector. -/
def asciiLower (c : Char) : Char :=
  if 'A' ≤ c ∧ c ≤ 'Z' then Char.ofNat (c.toNat + 32) else c

/-- `str.lower()` on a field name. -/
def pyLower (s : List Char) : List Char := s.map asciiLower

namespace SeqMatcher

/-- `difflib`'s `b2j` index: the ascending positions of `c` in `b`. -/
def b2j (b : List Char) (c : Char) : List Nat :=
  (b.enum.filter (fun p => p.2 = c)).map Prod.fst

/-- `j2len.get(j, 0)` on the association list carried by the DP. -/
def j2lenGet (m : List (Nat × Nat)) (j : Nat) : Nat :=
  ((m.find? (fun p => p.1 = j)).map Prod.snd).getD 0

/-- The inner loop of `find_longest_match` for one row `i`: scan the
ascending positions of `a[i]` in `b`, build the new `j2len` row and track
the best block `(start_a, start_b, size)`. -/
def flmScan (j2len : List (Nat × Nat)) (blo bhi i : Nat) :
    List Nat → List (Nat × Nat) → Nat × Nat × Nat →
      List (Nat × Nat) × (Nat × Nat × Nat)
  | [], acc, best => (acc, best)
  | j :: js, acc, best =>
    if j < blo then flmScan j2len blo bhi i js acc best
    else if bhi ≤ j then (acc, best)
    else
      let k := (if j = 0 then 0 else j2lenGet j2len (j - 1)) + 1
      let acc2 := (j, k) :: acc
      let best2 := if best.2.2 < k then (i + 1 - k, j + 1 - k, k) else best
      flmScan j2len blo bhi i js acc2 best2

/-- The outer loop of `find_longest_match` over the rows `i ∈ [alo, ahi)`. -/
def flmOuter (a b : List Char) (blo bhi : Nat) :
    List Nat → List (Nat × Nat) → Nat × Nat × Nat → Nat × Nat × Nat
  | [], _, best => best
  | i :: is, j2len, best =>
    let p := flmScan j2len blo bhi i (b2j b (a.getD i ' ')) [] best
    flmOuter a b blo bhi is p.1 p.2

/-- `SequenceMatcher.find_longest_match` over the ranges
`a[alo:ahi]`, `b[blo:bhi]`, with no junk. -/
def findLongestMatch (a b : List Char) (alo ahi blo bhi : Nat) :
    Nat × Nat × Nat :=
  flmOuter a b blo bhi (List.range' alo (ahi - alo)) [] (alo, blo, 0)

/-- Total size of the matching blocks (`get_matching_blocks` recursion);
only the total enters `ratio`. -/
def msize (a b : List Char) : Nat → Nat → Nat → Nat → Nat → Nat
  | 0, _, _, _, _ => 0
  | fuel + 1, alo, ahi, blo, bhi =>
    let t := findLongestMatch a b alo ahi blo bhi
    if t.2.2 = 0 then 0
    else
      t.2.2 + msize a b fuel alo t.1 blo t.2.1 +
        msize a b fuel (t.1 + t.2.2) ahi (t.2.1 + t.2.2) bhi

/-- `SequenceMatcher(None, a, b).ratio() = 2*M/T` (and `1.0` when both
strings are empty, per `_calculate_ratio`). -/
def ratio (a b : List Char) : ℚ :=
  let la := a.length
  let lb := b.length
  if la + lb = 0 then 1
  else mkRat ((2 * msize a b (la + lb + 1) 0 la 0 lb : Nat) : Int) (la + lb)

end SeqMatcher

/-- A Python value as seen by the drift detector.  `other` carries
`type(value).__name__` for types outside the classified ones. -/
inductive PyValue where
  | none
  | bool (b : Bool)
  | int (n : Int)
  | float (q : ℚ)
  | str (s : String)
  | list (n : Nat)
  | dict (n : Nat)
  | datetime (rendered : String)
  | other (typeName : String)

/-- A record (Python `dict`): keys are unique, in insertion order.  `list`
and `dict` values carry only their element count, which is all the detector
inspects (type tag and truthiness). -/
def PyRecord : Type := List (String × PyValue)

/-- `dict.get(field)` with `None` default. -/
def pyGet (data : PyRecord) (k : String) : PyValue :=
  ((data.find? (fun p => p.1 = k)).map Prod.snd).getD .none

/-- `SchemaDriftDetector._get_python_type` (lines 74-92). -/
def getPythonType : PyValue → String
  | .none => "null"
  | .bool _ => "bool"
  | .int _ => "int"
  | .float _ => "float"
  | .str _ => "str"
  | .list _ => "list"
  | .dict _ => "dict"
  | .datetime _ => "datetime"
  | .other n => n

/-- Python truthiness of a value, as used by
`... if data.get(field) else None`. -/
def pyTruthy : PyValue → Bool
  | .none => false
  | .bool b => b
  | .int n => n ≠ 0
  | .float q => q ≠ 0
  | .str s => s ≠ ""
  | .list n => n ≠ 0
  | .dict n => n ≠ 0
  | .datetime _ => true
  | .other _ => true

/-- `str(value)` for the scalar values a sample can carry.  Containers and
datetimes carry their rendered form; the decimal formatting of floats is not
modelled (no claim exercises float samples). -/
def pyStr : PyValue → String
  | .none => "None"
  | .bool true => "True"
  | .bool false => "False"
  | .int n => toString n
  | .float q => toString q.num
  | .str s => s
  | .list _ => "<list>"
  | .dict _ => "<dict>"
  | .datetime r => r
  | .other n => n

/-- `str(data.get(field))[:200] if data.get(field) else None`. -/
def sampleOf (v : PyValue) : Option String :=
  if pyTruthy v then some ((pyStr v).toList.take 200).asString else none

/-- The drift kinds of `SchemaDrift.drift_type`. -/
inductive DriftType where
  | new_field
  | missing_field
  | type_change
  | renamed_field
deriving DecidableEq

/-- `schema_drift.DriftResult` (lines 19-28). -/
structure DriftResult where
  field_name : String
  drift_type : DriftType
  expected_type : Option String
  actual_type : Option String
  confidence_score : ℚ
  sample_value : Option String
deriving DecidableEq

/-- `SchemaDriftDetector.EXPECTED_SCHEMAS` (lines 35-66), in source order. -/
def EXPECTED_SCHEMAS : SourceType → List (String × String)
  | .api =>
    [("id", "str"), ("title", "str"), ("description", "str"),
     ("content", "str"), ("author", "str"), ("category", "str"),
     ("tags", "list"), ("url", "str"), ("created_at", "datetime"),
     ("updated_at", "datetime")]
  | .csv =>
    [("id", "str"), ("name", "str"), ("description", "str"),
     ("category", "str"), ("value", "float"), ("date", "datetime"),
     ("active", "bool")]
  | .rss =>
    [("guid", "str"), ("title", "str"), ("description", "str"),
     ("link", "str"), ("author", "str"), ("pubDate", "datetime"),
     ("category", "str")]

/-- `dict.get` on a field→type schema. -/
def lookupStr (m : List (String × String)) (k : String) : Option String :=
  (m.find? (fun p => p.1 = k)).map Prod.snd

/-- `SchemaDriftDetector._fuzzy_match_field` (lines 94-112): a direct
case-insensitive match returns immediately with score 1.0, otherwise the
best `SequenceMatcher` ratio is kept (strictly better scores only, so a
best score of 0 leaves the match `None`). -/
def fuzzyMatchField (fieldName : String) :
    List String → Option String → ℚ → Option String × ℚ
  | [], bestMatch, bestScore => (bestMatch, bestScore)
  | e :: rest, bestMatch, bestScore =>
    if pyLower fieldName.toList = pyLower e.toList then (some e, 1)
    else
      let score := SeqMatcher.ratio (pyLower fieldName.toList) (pyLower e.toList)
      if bestScore < score then fuzzyMatchField fieldName rest (some e) score
      else fuzzyMatchField fieldName rest bestMatch bestScore

/-- `_fuzzy_match_field` from its initial accumulator.  (Python iterates a
`set` of candidates; the iteration order only influences which of several
equally-scored candidates is reported, never the score or `None`-ness.) -/
def fuzzyMatch (fieldName : String) (candidates : List String) :
    Option String × ℚ :=
  fuzzyMatchField fieldName candidates none 0

/-- `SchemaDriftDetector._types_compatible` (lines 114-129). -/
def typesCompatible (expected actual : String) : Bool :=
  let pairs : List (String × String) :=
    [("int", "float"), ("float", "int"), ("str", "int"), ("str", "float"),
     ("datetime", "str"), ("list", "str")]
  expected = actual || pairs.contains (expected, actual) ||
    pairs.contains (actual, expected)

/-- `SchemaDriftDetector.detect_drift` (lines 131-216).  The three loops run
over the set differences / intersection of the actual and expected field
sets; set iteration order (irrelevant to the claims) is modelled as
first-occurrence order. -/
def detectDrift (threshold : ℚ) (sourceType : SourceType) (data : PyRecord) :
    List DriftResult :=
  let expectedSchema := EXPECTED_SCHEMAS sourceType
  let expectedFields := expectedSchema.map Prod.fst
  let actualFields := data.map Prod.fst
  let newDrifts :=
    (actualFields.filter (fun f => ¬ expectedFields.contains f)).map fun f =>
      let ms := fuzzyMatch f expectedFields
      if threshold ≤ ms.2 then
        { field_name := f
          drift_type := .renamed_field
          expected_type := ms.1.bind (lookupStr expectedSchema)
          actual_type := some (getPythonType (pyGet data f))
          confidence_score := ms.2
          sample_value := sampleOf (pyGet data f) }
      else
        { field_name := f
          drift_type := .new_field
          expected_type := none
          actual_type := some (getPythonType (pyGet data f))
          confidence_score := if ms.1.isSome then 1 - ms.2 else 1
          sample_value := sampleOf (pyGet data f) }
  let missingDrifts :=
    (expectedFields.filter (fun f => ¬ actualFields.contains f)).filterMap
      fun f =>
        let ms := fuzzyMatch f actualFields
        if ms.2 < threshold then
          some { field_name := f
                 drift_type := .missing_field
                 expected_type := lookupStr expectedSchema f
                 actual_type := none
                 confidence_score := if ms.1.isSome then 1 - ms.2 else 1
                 sample_value := none }
        else none
  let typeDrifts :=
    (expectedFields.filter (fun f => actualFields.contains f)).filterMap
      fun f =>
        let expectedType := (lookupStr expectedSchema f).getD ""
        let actualType := getPythonType (pyGet data f)
        if ¬ typesCompatible expectedType actualType then
          some { field_name := f
                 drift_type := .type_change
                 expected_type := lookupStr expectedSchema f
                 actual_type := some actualType
                 confidence_score := 1
                 sample_value := sampleOf (pyGet data f) }
        else none
  newDrifts ++ missingDrifts ++ typeDrifts

/-- A CSV record matching the expected CSV schema exactly, plus one field
`"qqq"` sharing no character with any expected field name, so every fuzzy
score is 0 and no best match is retained. -/
def recordWithNewField : PyRecord :=
  [("id", .str "1"), ("name", .str "widget"), ("description", .str "d"),
   ("category", .str "c"), ("value", .float 5),
   ("date", .datetime "2024-01-01"), ("active", .bool true),
   ("qqq", .int 7)]

/-- A CSV record with the expected field `"value"` absent and every other
expected field present with a type-compatible value; no actual field is
similar to `"value"` at the 0.8 threshold (the best ratio is 4/9, against
`"name"`). -/
def recordMissingValue : PyRecord :=
  [("id", .str "1"), ("name", .str "widget"), ("description", .str "d"),
   ("category", .str "c"), ("date", .datetime "2024-01-01"),
   ("active", .bool true)]

/-! ## Incremental filtering (`BaseExtractor.should_process`) -/

/-- Python's `<` on `str`: lexicographic comparison of Unicode code
points. -/
def pyStrLt : List Char → List Char → Bool
  | [], [] => false
  | [], _ :: _ => true
  | _ :: _, [] => false
  | a :: as, b :: bs =>
    if a.toNat < b.toNat then true
    else if a.toNat = b.toNat then pyStrLt as bs
    else false

/-- `BaseExtractor.should_process` (base.py lines 83-89): process when no
checkpoint (or no stored id) exists, else when `source_id > last_id` as
Python strings. -/
def shouldProcess (lastId : Option String) (sourceId : String) : Bool :=
  match lastId with
  | none => true
  | some l => pyStrLt l.toList sourceId.toList

/-- C6: `should_process` accepts every id when no checkpoint exists; with
`last_source_id = "test:50"` both `"test:6"` and `"test:51"` are accepted,
because the comparison is lexicographic (`'6' > '5'` at the differing
position), not numeric (numerically 6 < 50 would be rejected). -/
theorem shouldProcess_lexicographic :
    (∀ sourceId : String, shouldProcess none sourceId = true) ∧
    shouldProcess (some "test:50") "test:6" = true ∧
    shouldProcess (some "test:50") "test:51" = true :=
  ⟨fun _ => rfl, by decide, by decide⟩

/-! ## Checkpoint manager (`src/services/checkpoint.py`)

The backing store is modelled by the current checkpoint row for the source
type plus an injected failure `dbFail`: `dbFail = some e` makes the
operation's transaction raise with message `e`, which the `except` wrappers
turn into a `CheckpointError` (after rollback), never swallowing it. -/

/-- The `checkpoint_metadata` JSON mapping; the `run()` loop stores
`{"records_processed": n}`. -/
abbrev CheckpointMetadata : Type := List (String × Int)

/-- `core.models.ETLCheckpoint` (cursor fields). -/
structure Checkpoint where
  last_source_id : Option String
  last_offset : Int
  last_processed_at : Option ℚ
  checkpoint_metadata : Option CheckpointMetadata
deriving DecidableEq

/-- `core.exceptions.CheckpointError`. -/
structure CheckpointError where
  message : String
deriving DecidableEq

/-- The pure part of `CheckpointManager.update_checkpoint` (lines 53-84):
create the row when absent (`last_offset=last_offset or 0`, so an absent
offset defaults to 0), else overwrite exactly the fields that were
provided (`is not None`), and in both cases stamp `last_processed_at` with
the current time. -/
def applyCheckpointUpdate (cp : Option Checkpoint)
    (lastSourceId : Option String) (lastOffset : Option Int)
    (metadata : Option CheckpointMetadata) (now : ℚ) : Checkpoint :=
  match cp with
  | none =>
    { last_source_id := lastSourceId
      last_offset := lastOffset.getD 0
      last_processed_at := some now
      checkpoint_metadata := metadata }
  | some c =>
    { last_source_id := lastSourceId.or c.last_source_id
      last_offset := lastOffset.getD c.last_offset
      last_processed_at := some now
      checkpoint_metadata := metadata.or c.checkpoint_metadata }

/-- `CheckpointManager.update_checkpoint` (lines 45-89). -/
def updateCheckpoint (dbFail : Option String) (cp : Option Checkpoint)
    (lastSourceId : Option String) (lastOffset : Option Int)
    (metadata : Option CheckpointMetadata) (now : ℚ) :
    Except CheckpointError Checkpoint :=
  match dbFail with
  | some e => Except.error ⟨s!"Failed to update checkpoint: {e}"⟩
  | none =>
    Except.ok (applyCheckpointUpdate cp lastSourceId lastOffset metadata now)

/-- `CheckpointManager.get_checkpoint` (lines 22-33). -/
def getCheckpoint (dbFail : Option String) (cp : Option Checkpoint) :
    Except CheckpointError (Option Checkpoint) :=
  match dbFail with
  | some e => Except.error ⟨s!"Failed to get checkpoint: {e}"⟩
  | none => Except.ok cp

/-- `CheckpointManager.reset_checkpoint` (lines 91-105): clears every
cursor field without deleting the row (no-op when the row is absent). -/
def resetCheckpoint (dbFail : Option String) (cp : Option Checkpoint) :
    Except CheckpointError (Option Checkpoint) :=
  match dbFail with
  | some e => Except.error ⟨s!"Failed to reset checkpoint: {e}"⟩
  | none =>
    match cp with
    | none => Except.ok none
    | some _ =>
      Except.ok (some { last_source_id := none, last_offset := 0
                        last_processed_at := none, checkpoint_metadata := none })

/-- C8: `update_checkpoint` creates the row when absent; when present it
overwrites only the provided cursor fields (an absent field keeps its
stored value) while always stamping `last_processed_at` with the current
time; and a persistence failure in get/update/reset surfaces as a
`CheckpointError` wrapping the cause. -/
theorem updateCheckpoint_upsert_semantics (lastSourceId : Option String)
    (lastOffset : Option Int) (metadata : Option CheckpointMetadata)
    (now : ℚ) (c : Checkpoint) (cp : Option Checkpoint) (e : String) :
    (updateCheckpoint none none lastSourceId lastOffset metadata now =
      Except.ok
        { last_source_id := lastSourceId
          last_offset := lastOffset.getD 0
          last_processed_at := some now
          checkpoint_metadata := metadata }) ∧
    (updateCheckpoint none (some c) lastSourceId lastOffset metadata now =
      Except.ok
        { last_source_id := lastSourceId.or c.last_source_id
          last_offset := lastOffset.getD c.last_offset
          last_processed_at := some now
          checkpoint_metadata := metadata.or c.checkpoint_metadata }) ∧
    (updateCheckpoint (some e) cp lastSourceId lastOffset metadata now =
      Except.error ⟨s!"Failed to update checkpoint: {e}"⟩) ∧
    (getCheckpoint (some e) cp =
      Except.error ⟨s!"Failed to get checkpoint: {e}"⟩) ∧
    (resetCheckpoint (some e) cp =
      Except.error ⟨s!"Failed to reset checkpoint: {e}"⟩) :=
  ⟨rfl, rfl, rfl, rfl, rfl⟩

/-! ## The shared extraction driver (`BaseExtractor.run`)

`run()` is modelled over the state a single extractor touches: its source
type's checkpoint row and the run history.  The lazy extraction sequence is
modelled as the list of records it yields before terminating, followed by
an optional source-level exception (`ETLOrchestrator.run_with_failure_injection`
wraps `extract()` to raise after yielding `fail_at_record - 1` records, so
an injection at record K gives `records` of length K-1 plus a stream
error).  Per-record processing is summarised by `RecEvent.ok`: a `false`
record raises inside the per-record `try` (modelled at `load_raw`, after
the extracted counter increment), is caught, and counts as failed.  Run
ids, timestamps and the start-run metadata snapshot do not bear on any
claim and are omitted; `error_traceback` carries the message as a stand-in
for `traceback.format_exc()`. -/

/-- One record of the extraction sequence as the `run()` loop observes
it. -/
structure RecEvent where
  source_id : String
  ok : Bool
deriving DecidableEq

/-- The five counters of `BaseExtractor` (base.py lines 37-41). -/
structure RunCounters where
  extracted : Nat
  transformed : Nat
  loaded : Nat
  skipped : Nat
  failed : Nat
deriving DecidableEq

def RunCounters.zero : RunCounters := ⟨0, 0, 0, 0, 0⟩

/-- `core.models.ETLRun`, restricted to the fields the claims mention. -/
structure RunRecord where
  status : RunStatus
  counters : RunCounters
  error_message : Option String
  error_traceback : Option String
  checkpoint_data : Option (Option String)
deriving DecidableEq

/-- The per-source database state `run()` reads and writes. -/
structure EtlState where
  checkpoint : Option Checkpoint
  runs : List RunRecord
deriving DecidableEq

/-- The dict returned by `run()` (lines 191-200), without the run id. -/
structure RunSummary where
  source_type : SourceType
  status : RunStatus
  counters : RunCounters
deriving DecidableEq

/-- The body of the `for raw_data in self.extract()` loop (lines 117-150),
folding the counters and the `last_source_id` local.  The checkpoint is
read but never written inside the loop, so the skip decision compares
against the same stored id for the whole run. -/
def stepRecord (lastId : Option String) :
    RunCounters × Option String → RecEvent → RunCounters × Option String
  | (c, last), r =>
    if ¬ shouldProcess lastId r.source_id then
      ({ c with skipped := c.skipped + 1 }, last)
    else if r.ok then
      ({ c with
          extracted := c.extracted + 1
          transformed := c.transformed + 1
          loaded := c.loaded + 1 }, some r.source_id)
    else
      ({ c with extracted := c.extracted + 1, failed := c.failed + 1 }, last)

/-- `BaseExtractor.run` (lines 91-200).  On normal completion the
checkpoint is advanced to the last successfully processed id (only when one
exists and is non-empty, per `if last_source_id:`) and the run completes as
`success`/`partial` by the failed counter; a source-level exception skips
the checkpoint update, completes the run as `failed` with the error
recorded, and re-raises. -/
def runExtractor (sourceType : SourceType) (now : ℚ) (st : EtlState)
    (records : List RecEvent) (streamError : Option String) :
    EtlState × Except String RunSummary :=
  let lastId := st.checkpoint.bind (fun c => c.last_source_id)
  let fold := records.foldl (stepRecord lastId) (RunCounters.zero, none)
  let c := fold.1
  match streamError with
  | some e =>
    let run : RunRecord :=
      { status := RunStatus.failed, counters := c, error_message := some e
        error_traceback := some e, checkpoint_data := none }
    ({ st with runs := st.runs ++ [run] }, Except.error e)
  | none =>
    let cp2 :=
      match fold.2 with
      | some s =>
        if s = "" then st.checkpoint
        else
          some (applyCheckpointUpdate st.checkpoint (some s) none
            (some [("records_processed", (c.loaded : Int))]) now)
      | none => st.checkpoint
    let status :=
      if c.failed = 0 then RunStatus.success else RunStatus.partialRun
    let run : RunRecord :=
      { status := status, counters := c, error_message := none
        error_traceback := none, checkpoint_data := some fold.2 }
    ({ checkpoint := cp2, runs := st.runs ++ [run] },
      Except.ok { source_type := sourceType, status := status, counters := c })

/-- C7: when the extraction sequence completes, the final status is
`success` exactly when the failed counter is zero and `partial` otherwise;
when the sequence itself raises, the run is completed as `failed` with the
error message and trace recorded, and the exception is re-raised to the
caller after the run record is completed. -/
theorem run_final_status (sourceType : SourceType) (now : ℚ) (st : EtlState)
    (records : List RecEvent) :
    (∀ s, (runExtractor sourceType now st records none).2 = Except.ok s →
      (s.status = RunStatus.success ↔ s.counters.failed = 0) ∧
      (s.status = RunStatus.partialRun ↔ s.counters.failed ≠ 0)) ∧
    (∀ e,
      (runExtractor sourceType now st records (some e)).2 = Except.error e ∧
      ∃ run,
        (runExtractor sourceType now st records (some e)).1.runs.getLast? =
          some run ∧
        run.status = RunStatus.failed ∧ run.error_message = some e ∧
        run.error_traceback ≠ none) := by
  constructor
  · intro s hs
    simp only [runExtractor] at hs
    rw [Except.ok.injEq] at hs
    subst hs
    by_cases hf :
        (records.foldl
          (stepRecord (st.checkpoint.bind (fun c => c.last_source_id)))
          (RunCounters.zero, none)).1.failed = 0 <;>
      simp [hf]
  · intro e
    refine ⟨rfl,
      ⟨{ status := RunStatus.failed
         counters :=
           (records.foldl
             (stepRecord (st.checkpoint.bind (fun c => c.last_source_id)))
             (RunCounters.zero, none)).1
         error_message := some e
         error_traceback := some e
         checkpoint_data := none }, ?_, rfl, rfl, by simp⟩⟩
    simp only [runExtractor]
    exact List.getLast?_concat _

/-- Witness for C7: one successfully processed record, no stream error:
the run completes as `success` with failed count 0. -/
theorem run_final_status_witness :
    ((runExtractor SourceType.csv 0 ⟨none, []⟩ [⟨"a", true⟩] none).2 =
      Except.ok
        { source_type := SourceType.csv, status := RunStatus.success
          counters := ⟨1, 1, 1, 0, 0⟩ }) ∧
    (({ source_type := SourceType.csv, status := RunStatus.success
        counters := ⟨1, 1, 1, 0, 0⟩ } : RunSummary).status =
          RunStatus.success ↔
      ({ source_type := SourceType.csv, status := RunStatus.success
         counters := ⟨1, 1, 1, 0, 0⟩ } : RunSummary).counters.failed = 0) := by
  have hok : (runExtractor SourceType.csv 0 ⟨none, []⟩ [⟨"a", true⟩] none).2 =
      Except.ok
        { source_type := SourceType.csv, status := RunStatus.success
          counters := ⟨1, 1, 1, 0, 0⟩ } := rfl
  exact ⟨hok,
    ((run_final_status SourceType.csv 0 ⟨none, []⟩ [⟨"a", true⟩]).1 _ hok).1⟩

theorem stepRecord_none_of_no_load (lastId : Option String) :
    ∀ (recs : List RecEvent) (c : RunCounters),
      (∀ r ∈ recs, shouldProcess lastId r.source_id = false ∨ r.ok = false) →
      (recs.foldl (stepRecord lastId) (c, none)).2 = none := by
  intro recs
  induction recs with
  | nil => intro c _; rfl
  | cons r rest ih =>
    intro c h
    have hr := h r (by simp)
    have hrest : ∀ u ∈ rest,
        shouldProcess lastId u.source_id = false ∨ u.ok = false :=
      fun u hu => h u (by simp [hu])
    rcases hr with hskip | hfail
    · simp only [List.foldl_cons, stepRecord, hskip]
      exact ih _ hrest
    · simp only [List.foldl_cons, stepRecord, hfail]
      by_cases hsp : shouldProcess lastId r.source_id = true <;>
        simp [hsp] <;> exact ih _ hrest

/-- C10: when the extraction sequence completes but no record was loaded
end-to-end (every record was skipped or failed, or the sequence was
empty), `run()` never calls `update_checkpoint`, so the stored checkpoint
row — including `last_processed_at` — is exactly what it was before the
run. -/
theorem run_no_load_checkpoint_unchanged (sourceType : SourceType) (now : ℚ)
    (st : EtlState) (records : List RecEvent)
    (h : ∀ r ∈ records,
      shouldProcess (st.checkpoint.bind (fun c => c.last_source_id))
          r.source_id = false ∨
        r.ok = false) :
    (runExtractor sourceType now st records none).1.checkpoint =
      st.checkpoint := by
  simp only [runExtractor]
  rw [stepRecord_none_of_no_load _ records RunCounters.zero h]

/-- Witness for C10: a stored checkpoint at `"z"` and one record `"a"`
that the incremental filter skips; the checkpoint row is untouched. -/
theorem run_no_load_checkpoint_unchanged_witness :
    (∀ r ∈ [RecEvent.mk "a" true],
      shouldProcess
          ((some (Checkpoint.mk (some "z") 0 none none)).bind
            (fun c => c.last_source_id)) r.source_id = false ∨
        r.ok = false) ∧
    (runExtractor SourceType.csv 0
        ⟨some ⟨some "z", 0, none, none⟩, []⟩ [⟨"a", true⟩] none).1.checkpoint =
      some ⟨some "z", 0, none, none⟩ := by
  refine ⟨by decide, ?_⟩
  exact run_no_load_checkpoint_unchanged SourceType.csv 0
    ⟨some ⟨some "z", 0, none, none⟩, []⟩ [⟨"a", true⟩] (by decide)

/-- C1 (amended): after a source-level failure injected after record K
(records 1..K-1 yielded, then the sequence raises), `run()` completes the
run as `failed` with the error message captured and re-raises — but the
stored checkpoint is left unchanged from its pre-run value: the checkpoint
update only happens after the sequence completes, so it does not advance to
record K-1. -/
theorem failure_injection_checkpoint_unchanged (sourceType : SourceType)
    (now : ℚ) (st : EtlState) (records : List RecEvent) (e : String) :
    (runExtractor sourceType now st records (some e)).1.checkpoint =
      st.checkpoint ∧
    (runExtractor sourceType now st records (some e)).2 = Except.error e ∧
    (runExtractor sourceType now st records (some e)).1.runs.getLast? =
      some
        { status := RunStatus.failed
          counters :=
            (records.foldl
              (stepRecord (st.checkpoint.bind (fun c => c.last_source_id)))
              (RunCounters.zero, none)).1
          error_message := some e
          error_traceback := some e
          checkpoint_data := none } := by
  refine ⟨rfl, rfl, ?_⟩
  simp only [runExtractor]
  exact List.getLast?_concat _

/-- C1 counterexample: failure injected after record K = 2 over a sequence
whose first record `"r1"` was fully processed, starting with no checkpoint
row.  The claim says the stored checkpoint afterwards reflects progress
through record K-1 (`last_source_id = "r1"`); in fact `run()` skipped the
checkpoint update entirely and the row still does not exist, while the
`failed` status and error message parts of the claim do hold. -/
theorem failure_injection_checkpoint_cex :
    (runExtractor SourceType.csv 0 ⟨none, []⟩ [⟨"r1", true⟩]
        (some "Injected failure at record 2")).1.checkpoint = none ∧
    ¬ (∃ cp : Checkpoint,
        (runExtractor SourceType.csv 0 ⟨none, []⟩ [⟨"r1", true⟩]
            (some "Injected failure at record 2")).1.checkpoint = some cp ∧
        cp.last_source_id = some "r1") ∧
    ((runExtractor SourceType.csv 0 ⟨none, []⟩ [⟨"r1", true⟩]
        (some "Injected failure at record 2")).1.runs.getLast?).map
        (fun r => (r.status, r.error_message)) =
      some (RunStatus.failed, some "Injected failure at record 2") := by
  refine ⟨rfl, ?_, rfl⟩
  rintro ⟨cp, hcp, -⟩
  exact Option.noConfusion hcp

/-- C3: `detect_drift` on a record whose single unexpected field has no
fuzzy match to any expected field emits exactly one drift, a `new_field`
drift with confidence 1.0; and on a record missing exactly one expected
field with no similar actual field it emits exactly one drift, a
`missing_field` drift for that field. -/
theorem detectDrift_new_and_missing_field :
    detectDrift (mkRat 4 5) .csv recordWithNewField =
      [{ field_name := "qqq"
         drift_type := .new_field
         expected_type := none
         actual_type := some "int"
         confidence_score := 1
         sample_value := some "7" }] ∧
    (detectDrift (mkRat 4 5) .csv recordMissingValue).map
        (fun d => (d.field_name, d.drift_type, d.expected_type, d.actual_type,
          d.sample_value)) =
      [("value", .missing_field, some "float", none, none)] :=
  ⟨by decide, by decide⟩

/-! ## Idempotent dual write (`load_raw` / `load_unified`)

The two upserts of each extractor (`csv_extractor.py` lines 244-299,
`api_extractor.py` lines 211-260) over a transactional store.  `load_raw`
is `INSERT … ON CONFLICT (source_id) DO UPDATE … RETURNING id`: an existing
row keyed by `source_id` is overwritten in place (payload, checksum,
timestamp) and its id returned, otherwise a fresh row and id are created.
`load_unified` then upserts on the `uq_unified_source` constraint over
`(source_type, source_id)` with `source_id = str(raw_id)`, replacing the
row's `raw_id`, payload fields and `updated_at` on conflict.  The payload
and transformed shapes are abstract types `α`, `β`; the source-specific
`transform` and `compute_checksum` are abstract functions, so the theorems
hold for every source type and extractor variant. -/

/-- A row of a `raw_*` table. -/
structure RawRow (α : Type) where
  id : Nat
  source_id : String
  payload : α
  checksum : String
  ingested_at : ℚ

/-- A `raw_*` table: rows in insertion order plus the id sequence. -/
structure RawTable (α : Type) where
  rows : List (RawRow α)
  next_id : Nat

/-- `load_raw`: upsert keyed on `source_id`, returning the row id. -/
def loadRaw {α : Type} (t : RawTable α) (sourceId : String) (payload : α)
    (checksum : String) (now : ℚ) : RawTable α × Nat :=
  match t.rows.find? (fun r => r.source_id == sourceId) with
  | some r =>
    ({ t with
        rows := t.rows.map (fun r2 =>
          if r2.source_id == sourceId then
            { r2 with payload := payload, checksum := checksum
                      ingested_at := now }
          else r2) }, r.id)
  | none =>
    ({ rows := t.rows ++
        [{ id := t.next_id, source_id := sourceId, payload := payload
           checksum := checksum, ingested_at := now }]
       next_id := t.next_id + 1 }, t.next_id)

/-- A row of the `unified_data` table. -/
structure UnifiedRow (β : Type) where
  source_type : SourceType
  source_id : String
  raw_id : Nat
  data : β
  updated_at : ℚ

/-- The `unified_data` table. -/
structure UnifiedTable (β : Type) where
  rows : List (UnifiedRow β)

/-- The `(source_type, source_id)` keys, the columns of the
`uq_unified_source` unique constraint. -/
def unifiedKeys {β : Type} (u : UnifiedTable β) : List (SourceType × String) :=
  u.rows.map (fun r => (r.source_type, r.source_id))

/-- Whether a row with this `(source_type, source_id)` key exists. -/
def hasKey {β : Type} (u : UnifiedTable β) (stype : SourceType)
    (sid : String) : Bool :=
  u.rows.any (fun r => r.source_type == stype && r.source_id == sid)

/-- `load_unified`: upsert on the `uq_unified_source` constraint, with
`source_id = str(raw_id)`; on conflict the existing row is replaced
(`raw_id`, data, `updated_at`), never duplicated. -/
def loadUnified {β : Type} (u : UnifiedTable β) (stype : SourceType)
    (rawId : Nat) (data : β) (now : ℚ) : UnifiedTable β :=
  let sid := toString rawId
  if hasKey u stype sid then
    { rows := u.rows.map (fun r =>
        if r.source_type == stype && r.source_id == sid then
          { r with raw_id := rawId, data := data, updated_at := now }
        else r) }
  else
    { rows := u.rows ++
        [{ source_type := stype, source_id := sid, raw_id := rawId
           data := data, updated_at := now }] }

/-- The raw and unified tables one extractor writes. -/
structure Tables (α β : Type) where
  raw : RawTable α
  unified : UnifiedTable β

/-- Steps e and g of the `run()` loop for one record: `load_raw`, then
`load_unified` of the transformed payload under the returned raw id. -/
def upsertRecord {α β : Type} (stype : SourceType) (transform : α → β)
    (checksum : α → String) (now : ℚ) (st : Tables α β) (rec : String × α) :
    Tables α β :=
  let p := loadRaw st.raw rec.1 rec.2 (checksum rec.2) now
  { raw := p.1
    unified := loadUnified st.unified stype p.2 (transform rec.2) now }

/-- The dual write over a whole extraction sequence of
`(source_id, payload)` records, in emission order. -/
def processRecords {α β : Type} (stype : SourceType) (transform : α → β)
    (checksum : α → String) (now : ℚ) (st : Tables α β)
    (recs : List (String × α)) : Tables α β :=
  recs.foldl (upsertRecord stype transform checksum now) st

/-- The id of the first raw row keyed by `sid` — what the `RETURNING id` of
a conflicting `load_raw` yields. -/
def firstRawId {α : Type} (t : RawTable α) (sid : String) : Option Nat :=
  (t.rows.find? (fun r => r.source_id == sid)).map (fun r => r.id)

/-- `sid` has been through the dual write: its raw row exists and the
unified row for its raw id exists. -/
def Linked {α β : Type} (stype : SourceType) (st : Tables α β)
    (sid : String) : Prop :=
  ∃ i, firstRawId st.raw sid = some i ∧
    hasKey st.unified stype (toString i) = true

theorem find?_id_map {α : Type} (g : RawRow α → RawRow α)
    (hg : ∀ r, (g r).source_id = r.source_id ∧ (g r).id = r.id)
    (sid : String) :
    ∀ rows : List (RawRow α),
      ((rows.map g).find? (fun r => r.source_id == sid)).map (fun r => r.id) =
        (rows.find? (fun r => r.source_id == sid)).map (fun r => r.id) := by
  intro rows
  induction rows with
  | nil => rfl
  | cons a l ih =>
    simp only [List.map_cons, List.find?, (hg a).1]
    cases h : a.source_id == sid
    · simpa using ih
    · simpa using (hg a).2

theorem firstRawId_loadRaw {α : Type} (t : RawTable α) (sid' : String)
    (p : α) (ck : String) (now : ℚ) (sid : String) (i : Nat)
    (h : firstRawId t sid = some i) :
    firstRawId (loadRaw t sid' p ck now).1 sid = some i := by
  unfold loadRaw
  match hf : t.rows.find? (fun r => r.source_id == sid') with
  | some r =>
    simp only [hf]
    unfold firstRawId at h ⊢
    rw [find?_id_map (fun r2 =>
        if r2.source_id == sid' then
          { r2 with payload := p, checksum := ck, ingested_at := now }
        else r2)
      (fun r => by dsimp only; constructor <;> split <;> rfl) sid]
    exact h
  | none =>
    simp only [hf]
    unfold firstRawId at h ⊢
    simp only [List.find?_append]
    obtain ⟨r, hr, hid⟩ : ∃ r, t.rows.find? (fun x => x.source_id == sid) =
        some r ∧ r.id = i := by
      match hfind : t.rows.find? (fun x => x.source_id == sid) with
      | some r => exact ⟨r, hfind, by simpa [hfind] using h⟩
      | none => simp [hfind] at h
    rw [hr]
    simpa using hid

theorem loadRaw_returns_firstId {α : Type} (t : RawTable α) (sid : String)
    (p : α) (ck : String) (now : ℚ) (i : Nat)
    (h : firstRawId t sid = some i) :
    (loadRaw t sid p ck now).2 = i := by
  unfold loadRaw
  unfold firstRawId at h
  match hf : t.rows.find? (fun r => r.source_id == sid) with
  | some r =>
    simp only [hf]
    simpa [hf] using h
  | none => simp [hf] at h

theorem hasKey_loadUnified_mono {β : Type} (u : UnifiedTable β)
    (stype' : SourceType) (rid : Nat) (d : β) (now : ℚ)
    (stype : SourceType) (sid : String)
    (h : hasKey u stype sid = true) :
    hasKey (loadUnified u stype' rid d now) stype sid = true := by
  unfold loadUnified
  dsimp only
  split
  · unfold hasKey at h ⊢
    simp only [List.any_eq_true] at h ⊢
    obtain ⟨r, hr, hp⟩ := h
    refine ⟨_, List.mem_map_of_mem _ hr, ?_⟩
    dsimp only
    split <;> simpa using hp
  · unfold hasKey at h ⊢
    simp only [List.any_append, h, Bool.true_or]

theorem hasKey_loadUnified_self {β : Type} (u : UnifiedTable β)
    (stype : SourceType) (rid : Nat) (d : β) (now : ℚ) :
    hasKey (loadUnified u stype rid d now) stype (toString rid) = true := by
  unfold loadUnified
  dsimp only
  split
  · next hk =>
    unfold hasKey at hk ⊢
    simp only [List.any_eq_true] at hk ⊢
    obtain ⟨r, hr, hp⟩ := hk
    refine ⟨_, List.mem_map_of_mem _ hr, ?_⟩
    dsimp only
    split <;> simpa using hp
  · unfold hasKey
    simp

theorem unifiedKeys_loadUnified_of_hasKey {β : Type} (u : UnifiedTable β)
    (stype : SourceType) (rid : Nat) (d : β) (now : ℚ)
    (h : hasKey u stype (toString rid) = true) :
    unifiedKeys (loadUnified u stype rid d now) = unifiedKeys u := by
  unfold loadUnified
  dsimp only
  rw [if_pos h]
  unfold unifiedKeys
  simp only [List.map_map]
  refine List.map_congr_left (fun r _ => ?_)
  simp only [Function.comp]
  split <;> rfl

/-- One dual-write step on an already-linked `source_id` replaces rows in
place: the unified key set (hence the row count) is unchanged, and the link
survives. -/
theorem upsertRecord_linked_keys {α β : Type} (stype : SourceType)
    (transform : α → β) (checksum : α → String) (now : ℚ)
    (st : Tables α β) (sid : String) (a : α)
    (h : Linked stype st sid) :
    unifiedKeys (upsertRecord stype transform checksum now st (sid, a)).unified =
      unifiedKeys st.unified := by
  obtain ⟨i, hraw, hkey⟩ := h
  unfold upsertRecord
  simp only
  rw [loadRaw_returns_firstId st.raw sid a (checksum a) now i hraw]
  exact unifiedKeys_loadUnified_of_hasKey st.unified stype i
    (transform a) now hkey

/-- Any dual-write step preserves an existing link (for any `sid`). -/
theorem upsertRecord_preserves_linked {α β : Type} (stype : SourceType)
    (transform : α → β) (checksum : α → String) (now : ℚ)
    (st : Tables α β) (rec : String × α) (sid : String)
    (h : Linked stype st sid) :
    Linked stype (upsertRecord stype transform checksum now st rec) sid := by
  obtain ⟨i, hraw, hkey⟩ := h
  refine ⟨i, ?_, ?_⟩
  · exact firstRawId_loadRaw st.raw rec.1 rec.2 (checksum rec.2) now sid i hraw
  · exact hasKey_loadUnified_mono st.unified stype _ (transform rec.2) now
      stype (toString i) hkey

/-- A dual-write step links its own `source_id`. -/
theorem upsertRecord_links_self {α β : Type} (stype : SourceType)
    (transform : α → β) (checksum : α → String) (now : ℚ)
    (st : Tables α β) (sid : String) (a : α) :
    Linked stype (upsertRecord stype transform checksum now st (sid, a)) sid := by
  unfold upsertRecord
  simp only
  refine ⟨(loadRaw st.raw sid a (checksum a) now).2, ?_, ?_⟩
  · unfold loadRaw
    match hf : st.raw.rows.find? (fun r => r.source_id == sid) with
    | some r =>
      simp only [hf]
      unfold firstRawId
      rw [find?_id_map (fun r2 =>
          if r2.source_id == sid then
            { r2 with payload := a, checksum := checksum a, ingested_at := now }
          else r2)
        (fun r => by dsimp only; constructor <;> split <;> rfl) sid]
      simp [hf]
    | none =>
      simp only [hf]
      unfold firstRawId
      simp [List.find?_append, hf]
  · exact hasKey_loadUnified_self st.unified stype _ (transform a) now

theorem processRecords_preserves_linked {α β : Type} (stype : SourceType)
    (transform : α → β) (checksum : α → String) (now : ℚ) :
    ∀ (recs : List (String × α)) (st : Tables α β) (sid : String),
      Linked stype st sid →
      Linked stype (processRecords stype transform checksum now st recs) sid := by
  intro recs
  induction recs with
  | nil => intro st sid h; exact h
  | cons r rest ih =>
    intro st sid h
    exact ih _ sid (upsertRecord_preserves_linked stype transform checksum
      now st r sid h)

theorem processRecords_links_all {α β : Type} (stype : SourceType)
    (transform : α → β) (checksum : α → String) (now : ℚ) :
    ∀ (recs : List (String × α)) (st : Tables α β),
      ∀ p ∈ recs,
        Linked stype (processRecords stype transform checksum now st recs)
          p.1 := by
  intro recs
  induction recs with
  | nil => intro st p hp; exact absurd hp (by simp)
  | cons r rest ih =>
    intro st p hp
    rcases List.mem_cons.mp hp with rfl | hmem
    · exact processRecords_preserves_linked stype transform checksum now rest _
        p.1 (by
          have := upsertRecord_links_self stype transform checksum now st p.1
            p.2
          simpa using this)
    · exact ih _ p hmem

theorem processRecords_keys_of_linked {α β : Type} (stype : SourceType)
    (transform : α → β) (checksum : α → String) (now : ℚ) :
    ∀ (recs : List (String × α)) (st : Tables α β),
      (∀ p ∈ recs, Linked stype st p.1) →
      unifiedKeys (processRecords stype transform checksum now st recs).unified =
        unifiedKeys st.unified := by
  intro recs
  induction recs with
  | nil => intro st _; rfl
  | cons r rest ih =>
    intro st h
    have hr : Linked stype st r.1 := h r (by simp)
    have hrest : ∀ p ∈ rest,
        Linked stype (upsertRecord stype transform checksum now st r) p.1 :=
      fun p hp => upsertRecord_preserves_linked stype transform checksum now
        st r p.1 (h p (by simp [hp]))
    calc unifiedKeys (processRecords stype transform checksum now
          (upsertRecord stype transform checksum now st r) rest).unified
        = unifiedKeys (upsertRecord stype transform checksum now st r).unified :=
          ih _ hrest
      _ = unifiedKeys st.unified := by
          have := upsertRecord_linked_keys stype transform checksum now st r.1
            r.2 hr
          simpa using this

theorem unifiedKeys_loadUnified_nodup {β : Type} (u : UnifiedTable β)
    (stype : SourceType) (rid : Nat) (d : β) (now : ℚ)
    (h : (unifiedKeys u).Nodup) :
    (unifiedKeys (loadUnified u stype rid d now)).Nodup := by
  unfold loadUnified
  dsimp only
  split
  · next hk =>
    have heq : unifiedKeys (loadUnified u stype rid d now) = unifiedKeys u :=
      unifiedKeys_loadUnified_of_hasKey u stype rid d now hk
    unfold loadUnified at heq
    dsimp only at heq
    rw [if_pos hk] at heq
    rw [heq]
    exact h
  · next hk =>
    unfold unifiedKeys at h ⊢
    simp only [List.map_append, List.map_cons, List.map_nil]
    rw [List.nodup_append]
    refine ⟨h, by simp, ?_⟩
    intro x hx
    simp only [List.mem_map] at hx
    obtain ⟨r, hr, hkey⟩ := hx
    simp only [List.mem_cons, List.not_mem_nil, or_false]
    intro hcon
    apply hk
    unfold hasKey
    rw [List.any_eq_true]
    refine ⟨r, hr, ?_⟩
    have h1 : r.source_type = stype := by
      have := congrArg Prod.fst (hkey.trans hcon)
      simpa using this
    have h2 : r.source_id = toString rid := by
      have := congrArg Prod.snd (hkey.trans hcon)
      simpa using this
    simp [h1, h2]

theorem processRecords_nodup {α β : Type} (stype : SourceType)
    (transform : α → β) (checksum : α → String) (now : ℚ) :
    ∀ (recs : List (String × α)) (st : Tables α β),
      (unifiedKeys st.unified).Nodup →
      (unifiedKeys
        (processRecords stype transform checksum now st recs).unified).Nodup := by
  intro recs
  induction recs with
  | nil => intro st h; exact h
  | cons r rest ih =>
    intro st h
    exact ih _ (unifiedKeys_loadUnified_nodup st.unified stype _ _ now h)

/-- C2: for every source type, transform and checksum function, running the
dual upsert twice over the same record sequence leaves the unified key set
— hence the `UnifiedRecord` row count — exactly as after one run (the
second run only replaces rows in place), and the upserts never introduce a
duplicate `(source_type, source_id)` pair. -/
theorem dual_upsert_idempotent {α β : Type} (stype : SourceType)
    (transform : α → β) (checksum : α → String) (now now2 : ℚ)
    (st : Tables α β) (recs : List (String × α)) :
    (unifiedKeys (processRecords stype transform checksum now2
        (processRecords stype transform checksum now st recs) recs).unified =
      unifiedKeys (processRecords stype transform checksum now st
        recs).unified) ∧
    ((processRecords stype transform checksum now2
        (processRecords stype transform checksum now st recs)
        recs).unified.rows.length =
      (processRecords stype transform checksum now st
        recs).unified.rows.length) ∧
    ((unifiedKeys st.unified).Nodup →
      (unifiedKeys
        (processRecords stype transform checksum now st
          recs).unified).Nodup) := by
  have hkeys :
      unifiedKeys (processRecords stype transform checksum now2
          (processRecords stype transform checksum now st recs) recs).unified =
        unifiedKeys (processRecords stype transform checksum now st
          recs).unified :=
    processRecords_keys_of_linked stype transform checksum now2 recs _
      (fun p hp => processRecords_links_all stype transform checksum now recs
        st p hp)
  refine ⟨hkeys, ?_, processRecords_nodup stype transform checksum now recs st⟩
  have := congrArg List.length hkeys
  simpa [unifiedKeys] using this

/-- Witness for C2: one record `("r", 5)` written into empty tables, run
twice. -/
theorem dual_upsert_idempotent_witness :
    ((unifiedKeys
        (⟨RawTable.mk [] 0, UnifiedTable.mk []⟩ : Tables Nat Nat).unified).Nodup) ∧
    (processRecords SourceType.csv (fun a => a + 1) (fun _ => "ck") 1
        (processRecords SourceType.csv (fun a => a + 1) (fun _ => "ck") 0
          ⟨⟨[], 0⟩, ⟨[]⟩⟩ [("r", 5)])
        [("r", 5)]).unified.rows.length =
      (processRecords SourceType.csv (fun a => a + 1) (fun _ => "ck") 0
        ⟨⟨[], 0⟩, ⟨[]⟩⟩ [("r", 5)]).unified.rows.length ∧
    (unifiedKeys
      (processRecords SourceType.csv (fun a => a + 1) (fun _ => "ck") 0
        ⟨⟨[], 0⟩, ⟨[]⟩⟩ [("r", 5)]).unified).Nodup := by
  have h := dual_upsert_idempotent SourceType.csv (fun a : Nat => a + 1)
    (fun _ => "ck") 0 1 ⟨⟨[], 0⟩, ⟨[]⟩⟩ [("r", 5)]
  exact ⟨by simp [unifiedKeys], h.2.1, h.2.2 (by simp [unifiedKeys])⟩

end Kasparro
